import Mathlib

/-!
Verification of the request-transform-invoke-response pipeline implemented in
src/lambdas/chat.ts of the cdk-bedrock-http-api repository.  The Lambda
handler is embedded shallowly: JavaScript values flowing through the handler
are modelled by an inductive JSON type, the JSON.parse builtin by an
executable recursive-descent parser, JSON.stringify by an executable
serializer, and the Bedrock client call by an explicit oracle argument of the
handler function.  All definitions are executable.
-/

/-- Model of a JavaScript JSON value.  Numbers are modelled as exact
rationals, which represent every numeric literal appearing in the handler
(200, 0.7) and in the test inputs exactly. -/
inductive Json where
  | null : Json
  | bool (b : Bool) : Json
  | num (q : Rat) : Json
  | str (s : String) : Json
  | arr (elems : List Json) : Json
  | obj (fields : List (String × Json)) : Json

namespace Json

/-- Model of JavaScript property access with optional chaining on a parsed
JSON value: on an object it looks the key up (first occurrence), on any other
value the result is undefined, modelled as none.  Accessing a property of
null throws in JavaScript, but every such access in the handler sits inside a
try block or behind optional chaining, so the observable result coincides
with none. -/
def getField : Json → String → Option Json
  | obj fields, k => fields.lookup k
  | _, _ => none

end Json

/-- Left brace character, written via its code point. -/
def lbrace : Char := Char.ofNat 123

/-- Right brace character, written via its code point. -/
def rbrace : Char := Char.ofNat 125

/-- Whitespace accepted by JSON between tokens. -/
def isJsonWs (c : Char) : Bool :=
  c = ' ' || c = '\t' || c = '\n' || c = '\r'

/-- Drop leading JSON whitespace. -/
def skipWs : List Char → List Char
  | [] => []
  | c :: cs => if isJsonWs c then skipWs cs else c :: cs

/-- Decimal digit test. -/
def isDigitChar (c : Char) : Bool :=
  48 ≤ c.toNat && c.toNat ≤ 57

/-- Value of a decimal digit character. -/
def digitVal (c : Char) : Nat := c.toNat - 48

/-- Value of a hexadecimal digit character, if any. -/
def hexVal (c : Char) : Option Nat :=
  if 48 ≤ c.toNat ∧ c.toNat ≤ 57 then some (c.toNat - 48)
  else if 97 ≤ c.toNat ∧ c.toNat ≤ 102 then some (c.toNat - 87)
  else if 65 ≤ c.toNat ∧ c.toNat ≤ 70 then some (c.toNat - 55)
  else none

/-- Take a maximal run of decimal digits from the front of the input,
returning the digits and the rest. -/
def takeDigits : List Char → List Char × List Char
  | [] => ([], [])
  | c :: cs =>
    if isDigitChar c then
      let (ds, rest) := takeDigits cs
      (c :: ds, rest)
    else ([], c :: cs)

/-- Numeric value of a digit string. -/
def digitsToNat (ds : List Char) : Nat :=
  ds.foldl (fun acc c => acc * 10 + digitVal c) 0

/-- Parse the remainder of a JSON string literal, after the opening quote,
handling the escape sequences accepted by JSON.parse and rejecting raw
control characters. -/
def parseStringRest : List Char → String → Option (String × List Char)
  | [], _ => none
  | c :: cs, acc =>
    if c = '"' then some (acc, cs)
    else if c = '\\' then
      match cs with
      | [] => none
      | e :: cs2 =>
        if e = '"' then parseStringRest cs2 (acc.push '"')
        else if e = '\\' then parseStringRest cs2 (acc.push '\\')
        else if e = '/' then parseStringRest cs2 (acc.push '/')
        else if e = 'b' then parseStringRest cs2 (acc.push (Char.ofNat 8))
        else if e = 'f' then parseStringRest cs2 (acc.push (Char.ofNat 12))
        else if e = 'n' then parseStringRest cs2 (acc.push '\n')
        else if e = 'r' then parseStringRest cs2 (acc.push '\r')
        else if e = 't' then parseStringRest cs2 (acc.push '\t')
        else if e = 'u' then
          match cs2 with
          | h1 :: h2 :: h3 :: h4 :: cs3 =>
            match hexVal h1, hexVal h2, hexVal h3, hexVal h4 with
            | some v1, some v2, some v3, some v4 =>
              parseStringRest cs3
                (acc.push (Char.ofNat (((v1 * 16 + v2) * 16 + v3) * 16 + v4)))
            | _, _, _, _ => none
          | _ => none
        else none
    else if c.toNat < 32 then none
    else parseStringRest cs (acc.push c)

/-- Parse a JSON number starting at the given input, returning its exact
rational value and the rest of the input.  Follows the JSON grammar: optional
minus sign, integer part without leading zeros, optional fraction, optional
exponent. -/
def parseNumber (input : List Char) : Option (Rat × List Char) :=
  let (neg, afterSign) :=
    match input with
    | c :: cs => if c = '-' then (true, cs) else (false, input)
    | [] => (false, input)
  let (intDs, afterInt) := takeDigits afterSign
  match intDs with
  | [] => none
  | d0 :: drest =>
    if d0 = '0' ∧ drest ≠ [] then none
    else
      let (fracDs, afterFrac) :=
        match afterInt with
        | c :: cs =>
          if c = '.' then
            let (ds, rest) := takeDigits cs
            (ds, rest)
          else ([], afterInt)
        | [] => ([], afterInt)
      let hadDot : Bool :=
        match afterInt with
        | c :: _ => c = '.'
        | [] => false
      if hadDot ∧ fracDs = [] then
        none
      else
        let parseExp : Option (Bool × List Char × List Char) :=
          match afterFrac with
          | c :: cs =>
            if c = 'e' ∨ c = 'E' then
              match cs with
              | s :: cs2 =>
                if s = '+' then
                  let (ds, rest) := takeDigits cs2
                  if ds = [] then none else some (false, ds, rest)
                else if s = '-' then
                  let (ds, rest) := takeDigits cs2
                  if ds = [] then none else some (true, ds, rest)
                else
                  let (ds, rest) := takeDigits cs
                  if ds = [] then none else some (false, ds, rest)
              | [] => none
            else some (false, [], afterFrac)
          | [] => some (false, [], afterFrac)
        match parseExp with
        | none => none
        | some (expNeg, expDs, rest) =>
          let mantissa : Int :=
            (if neg then -1 else 1) *
              (Int.ofNat (digitsToNat intDs * 10 ^ fracDs.length +
                digitsToNat fracDs))
          let e := digitsToNat expDs
          let q : Rat :=
            if expNeg then
              mkRat mantissa (10 ^ (fracDs.length + e))
            else
              mkRat (mantissa * (10 : Int) ^ e) (10 ^ fracDs.length)
          some (q, rest)

mutual

/-- Parse a single JSON value from the input, fueled to ensure termination;
model of the value grammar accepted by JSON.parse. -/
def parseVal : Nat → List Char → Option (Json × List Char)
  | 0, _ => none
  | fuel + 1, input =>
    match skipWs input with
    | [] => none
    | c :: rest =>
      if c = '"' then
        match parseStringRest rest "" with
        | some (s, rest2) => some (Json.str s, rest2)
        | none => none
      else if c = lbrace then
        parseObjFields fuel rest true
      else if c = '[' then
        parseArrElems fuel rest true
      else if c = 'n' then
        match rest with
        | 'u' :: 'l' :: 'l' :: rest2 => some (Json.null, rest2)
        | _ => none
      else if c = 't' then
        match rest with
        | 'r' :: 'u' :: 'e' :: rest2 => some (Json.bool true, rest2)
        | _ => none
      else if c = 'f' then
        match rest with
        | 'a' :: 'l' :: 's' :: 'e' :: rest2 => some (Json.bool false, rest2)
        | _ => none
      else
        match parseNumber (c :: rest) with
        | some (q, rest2) => some (Json.num q, rest2)
        | none => none

/-- Parse the fields of a JSON object after the opening brace; the flag marks
whether we are at the first field, where a closing brace is accepted. -/
def parseObjFields : Nat → List Char → Bool → Option (Json × List Char)
  | 0, _, _ => none
  | fuel + 1, input, first =>
    match skipWs input with
    | [] => none
    | c :: rest =>
      if first ∧ c = rbrace then some (Json.obj [], rest)
      else
        match skipWs input with
        | c2 :: rest2 =>
          if c2 = '"' then
            match parseStringRest rest2 "" with
            | none => none
            | some (k, afterKey) =>
              match skipWs afterKey with
              | ':' :: afterColon =>
                match parseVal fuel afterColon with
                | none => none
                | some (v, afterVal) =>
                  match skipWs afterVal with
                  | ',' :: afterComma =>
                    match parseObjFields fuel afterComma false with
                    | some (Json.obj fs, rest3) =>
                      some (Json.obj ((k, v) :: fs), rest3)
                    | _ => none
                  | d :: rest3 =>
                    if d = rbrace then some (Json.obj [(k, v)], rest3)
                    else none
                  | [] => none
              | _ => none
          else none
        | [] => none

/-- Parse the elements of a JSON array after the opening bracket; the flag
marks whether we are at the first element, where a closing bracket is
accepted. -/
def parseArrElems : Nat → List Char → Bool → Option (Json × List Char)
  | 0, _, _ => none
  | fuel + 1, input, first =>
    match skipWs input with
    | [] => none
    | c :: rest =>
      if first ∧ c = ']' then some (Json.arr [], rest)
      else
        match parseVal fuel input with
        | none => none
        | some (v, afterVal) =>
          match skipWs afterVal with
          | ',' :: afterComma =>
            match parseArrElems fuel afterComma false with
            | some (Json.arr vs, rest2) => some (Json.arr (v :: vs), rest2)
            | _ => none
          | ']' :: rest2 => some (Json.arr [v], rest2)
          | _ => none

end

/-- Model of the JavaScript builtin JSON.parse restricted to what the handler
observes: some value on success, none when JSON.parse would throw a
SyntaxError (the handler never inspects the exception beyond its name and
message). -/
def Json.parse (s : String) : Option Json :=
  match parseVal (s.length + 1) s.data with
  | some (j, rest) => if (skipWs rest).isEmpty then some j else none
  | none => none

/-- Hexadecimal digit character for a value below 16, lower case as produced
by JSON.stringify. -/
def hexDigitChar (n : Nat) : Char :=
  if n < 10 then Char.ofNat (48 + n) else Char.ofNat (87 + n)

/-- Escape one character the way JSON.stringify escapes characters inside a
string value. -/
def escapeChar (c : Char) : String :=
  if c = '"' then "\\\""
  else if c = '\\' then "\\\\"
  else if c = Char.ofNat 8 then "\\b"
  else if c = Char.ofNat 12 then "\\f"
  else if c = '\n' then "\\n"
  else if c = '\r' then "\\r"
  else if c = '\t' then "\\t"
  else if c.toNat < 32 then
    "\\u00" ++ String.singleton (hexDigitChar (c.toNat / 16)) ++
      String.singleton (hexDigitChar (c.toNat % 16))
  else String.singleton c

/-- Serialize a string value to its JSON quoted form. -/
def quoteString (s : String) : String :=
  "\"" ++ String.join (s.data.map escapeChar) ++ "\""

/-- Render a nonnegative rational number in decimal, emitting the digits
after the point until the remainder vanishes, with the given fuel bounding
the number of emitted fraction digits. -/
def fracDigitsString (fuel num den : Nat) : String :=
  match fuel with
  | 0 => ""
  | f + 1 =>
    if num = 0 then ""
    else
      let num10 := num * 10
      String.singleton (hexDigitChar (num10 / den % 16)) ++
        fracDigitsString f (num10 % den) den

/-- Render a rational number the way JSON.stringify renders the numbers that
occur in this system: integers in plain decimal, and terminating decimal
fractions with their digits after the point. -/
def ratToDecimalString (q : Rat) : String :=
  let sign := if q.num < 0 then "-" else ""
  let n := q.num.natAbs
  let d := q.den
  if n % d = 0 then sign ++ toString (n / d)
  else sign ++ toString (n / d) ++ "." ++ fracDigitsString 32 (n % d) d

mutual

/-- Model of the JavaScript builtin JSON.stringify on the values the handler
serializes. -/
def stringifyJson : Json → String
  | Json.null => "null"
  | Json.bool true => "true"
  | Json.bool false => "false"
  | Json.num q => ratToDecimalString q
  | Json.str s => quoteString s
  | Json.arr elems => "[" ++ stringifyElems elems ++ "]"
  | Json.obj fields =>
    String.singleton lbrace ++ stringifyFields fields ++ String.singleton rbrace

/-- Comma separated serialization of array elements. -/
def stringifyElems : List Json → String
  | [] => ""
  | [x] => stringifyJson x
  | x :: y :: rest => stringifyJson x ++ "," ++ stringifyElems (y :: rest)

/-- Comma separated serialization of object fields. -/
def stringifyFields : List (String × Json) → String
  | [] => ""
  | [(k, v)] => quoteString k ++ ":" ++ stringifyJson v
  | (k, v) :: f :: rest =>
    quoteString k ++ ":" ++ stringifyJson v ++ "," ++ stringifyFields (f :: rest)

end

/-- Shape of the event coming from API Gateway, as declared in chat.ts: the
body is a string, null, or absent; null and absent are both modelled as none
since the handler only tests the body for truthiness before parsing it. -/
structure ApiGatewayEvent where
  body : Option String

/-- Environment configuration read by the handler; each variable is a string
or unset. -/
structure LambdaEnv where
  bedrockRegion : Option String
  modelIdVar : Option String

/-- Model of the JavaScript idiom value OR default on an optional string
environment variable: the default is taken when the variable is unset or
empty, since the empty string is falsy. -/
def envOr (v : Option String) (dflt : String) : String :=
  match v with
  | some s => if s = "" then dflt else s
  | none => dflt

/-- Default prompt literal from chat.ts, used when the caller does not supply
a valid prompt. -/
def defaultPrompt : String := "Hello from Bedrock!"

/-- Default region literal from chat.ts. -/
def defaultRegion : String := "us-east-1"

/-- Default model identifier literal from chat.ts. -/
def defaultModelId : String := "anthropic.claude-3-sonnet-20240229-v1:0"

/-- Request Normalizer stage of the handler: the try block that parses the
inbound body and keeps the parsed prompt only when it is a string, falling
back to the default prompt on an absent or empty body, a JSON.parse failure,
or a prompt property that is missing or not a string. -/
def normalizePrompt (body : Option String) : String :=
  match body with
  | none => defaultPrompt
  | some s =>
    if s = "" then defaultPrompt
    else
      match Json.parse s with
      | none => defaultPrompt
      | some parsed =>
        match parsed.getField "prompt" with
        | some (Json.str p) => p
        | _ => defaultPrompt

/-- Inference Request Builder stage: the object literal serialized into the
InvokeModel request body in chat.ts, with its fixed protocol version tag,
generation parameters, and single user message wrapping the prompt as one
text content block. -/
def buildRequestJson (prompt : String) : Json :=
  Json.obj
    [("anthropic_version", Json.str "bedrock-2023-05-31"),
     ("max_tokens", Json.num 200),
     ("temperature", Json.num 0.7),
     ("messages",
       Json.arr
         [Json.obj
           [("role", Json.str "user"),
            ("content",
              Json.arr
                [Json.obj
                  [("type", Json.str "text"),
                   ("text", Json.str prompt)]])]])]

/-- Fields of the InvokeModelCommand constructed by the handler. -/
structure InvokeModelInput where
  modelId : String
  contentType : String
  accept : String
  body : String

/-- Observable data of a thrown JavaScript error as the handler consumes it:
the err.name and err.message reads are optional chained, so each is a string
or undefined. -/
structure JsError where
  name : Option String
  message : Option String

/-- Successful InvokeModel response as the handler consumes it: the binary
payload already decoded to a string, modelling new TextDecoder decode, which
never throws under the default utf-8 decoder. -/
structure InvokeModelOutput where
  body : String

/-- Error value observed when JSON.parse throws on the provider payload; the
name is the SyntaxError class name fixed by the JavaScript standard, the
message text is engine specific and modelled by a fixed string. -/
def syntaxError : JsError :=
  { name := some "SyntaxError", message := some "Unexpected token in JSON" }

/-- Response Extractor stage, block predicate: type equals the string text
and the text property is a string, as in the filter callback in chat.ts. -/
def isTextBlock (b : Json) : Bool :=
  (match b.getField "type" with
   | some (Json.str ty) => ty == "text"
   | _ => false) &&
  (match b.getField "text" with
   | some (Json.str _) => true
   | _ => false)

/-- Response Extractor stage, map callback: the text property of a block,
which the filter guarantees to be a string. -/
def blockTextValue (b : Json) : String :=
  match b.getField "text" with
  | some (Json.str t) => t
  | _ => ""

/-- Response Extractor stage: when the content property of the decoded
payload is an array, filter it to text blocks and join their text values
with no separator; otherwise the empty string. -/
def extractText (raw : Json) : String :=
  match raw.getField "content" with
  | some (Json.arr blocks) =>
    String.join ((blocks.filter isTextBlock).map blockTextValue)
  | _ => ""

/-- Standard headers of every response produced by the handler. -/
def jsonHeaders : List (String × String) := [("content-type", "application/json")]

/-- HTTP shaped result returned by the handler to API Gateway. -/
structure HttpResponse where
  statusCode : Nat
  headers : List (String × String)
  body : String

/-- Fragment of a JSON.stringify object for a property whose value may be
undefined: JSON.stringify omits properties whose value is undefined, so an
unset optional string contributes no field. -/
def optStrField (k : String) (v : Option String) : List (String × Json) :=
  match v with
  | some s => [(k, Json.str s)]
  | none => []

/-- Response Formatter, failure path: the catch block of chat.ts, a 500
response whose JSON body carries the fixed message literal and the optional
name and message of the caught error. -/
def errorResponse (err : JsError) : HttpResponse :=
  { statusCode := 500
    headers := jsonHeaders
    body :=
      stringifyJson
        (Json.obj
          ([("message", Json.str "Bedrock invoke failed")] ++
            optStrField "errorName" err.name ++
            optStrField "errorMessage" err.message)) }

/-- InvokeModelCommand input the handler passes to the Bedrock client send
call: a deterministic function of the environment configuration and the
inbound event. -/
def sentCommand (env : LambdaEnv) (event : ApiGatewayEvent) : InvokeModelInput :=
  { modelId := envOr env.modelIdVar defaultModelId
    contentType := "application/json"
    accept := "application/json"
    body := stringifyJson (buildRequestJson (normalizePrompt event.body)) }

/-- Lambda entry point of chat.ts.  The Bedrock client send call is modelled
by the send oracle argument, which returns either a decoded successful
response or a thrown error; the region configures the client endpoint only
and does not enter the request payload.  A JSON.parse failure on the
provider payload falls through to the same catch block as a failed send. -/
def handler (env : LambdaEnv) (event : ApiGatewayEvent)
    (send : InvokeModelInput → Except JsError InvokeModelOutput) : HttpResponse :=
  let region := envOr env.bedrockRegion defaultRegion
  let modelId := envOr env.modelIdVar defaultModelId
  let prompt := normalizePrompt event.body
  match send (sentCommand env event) with
  | Except.error err => errorResponse err
  | Except.ok resp =>
    match Json.parse resp.body with
    | none => errorResponse syntaxError
    | some raw =>
      { statusCode := 200
        headers := jsonHeaders
        body :=
          stringifyJson
            (Json.obj
              [("region", Json.str region),
               ("modelId", Json.str modelId),
               ("prompt", Json.str prompt),
               ("text", Json.str (extractText raw))]) }

/-- Parsing the empty string fails, as JSON.parse throws on empty input. -/
lemma json_parse_empty : Json.parse "" = none := rfl

/-- Instance of an inbound body whose prompt property is the empty string. -/
def emptyPromptBody : String := "\x7b\"prompt\":\"\"\x7d"

/-- C1 counterexample input: a body that parses as JSON with a string prompt
property whose value is empty makes the normalized prompt empty, so an empty
prompt reaches the Inference Request Builder. -/
theorem normalizePrompt_can_be_empty : normalizePrompt (some emptyPromptBody) = "" := rfl

/-- C1 (amended): the prompt that reaches the Inference Request Builder is
either the nonempty fixed default literal or the caller supplied prompt
string taken verbatim; consequently it is nonempty except when the caller
supplies the empty string as the prompt. -/
theorem prompt_default_or_verbatim :
    0 < defaultPrompt.length ∧
    ∀ b : Option String,
      normalizePrompt b = defaultPrompt ∨
      ∃ s j, b = some s ∧ Json.parse s = some j ∧
        j.getField "prompt" = some (Json.str (normalizePrompt b)) := by
  refine ⟨by decide, fun b => ?_⟩
  match b with
  | none => exact Or.inl rfl
  | some s =>
    by_cases hs : s = ""
    · subst hs; exact Or.inl rfl
    · cases hp : Json.parse s with
      | none => exact Or.inl (by simp [normalizePrompt, hs, hp])
      | some j =>
        cases hf : j.getField "prompt" with
        | none => exact Or.inl (by simp [normalizePrompt, hs, hp, hf])
        | some v =>
          cases v with
          | str p =>
            refine Or.inr ⟨s, j, rfl, hp, ?_⟩
            have hnp : normalizePrompt (some s) = p := by
              simp [normalizePrompt, hs, hp, hf]
            rw [hnp]; exact hf
          | null => exact Or.inl (by simp [normalizePrompt, hs, hp, hf])
          | bool c => exact Or.inl (by simp [normalizePrompt, hs, hp, hf])
          | num q => exact Or.inl (by simp [normalizePrompt, hs, hp, hf])
          | arr xs => exact Or.inl (by simp [normalizePrompt, hs, hp, hf])
          | obj fs => exact Or.inl (by simp [normalizePrompt, hs, hp, hf])

/-- C2: for every environment, inbound event and provider outcome the
handler returns a well formed response whose status code is 200 or 500. -/
theorem handler_status_200_or_500 (env : LambdaEnv) (event : ApiGatewayEvent)
    (send : InvokeModelInput → Except JsError InvokeModelOutput) :
    (handler env event send).statusCode = 200 ∨
      (handler env event send).statusCode = 500 := by
  cases hs : send (sentCommand env event) with
  | error err => exact Or.inr (by simp [handler, hs, errorResponse])
  | ok resp =>
    cases hp : Json.parse resp.body with
    | none => exact Or.inr (by simp [handler, hs, hp, errorResponse])
    | some raw => exact Or.inl (by simp [handler, hs, hp])

/-- C3: whenever the provider invocation raises an error, the handler
returns status 500 with the JSON body holding exactly the fixed message
literal and the optional error name and error message, and every field key
of that body is one of message, errorName, errorMessage, so the failure body
never carries prompt, region or modelId. -/
theorem invocation_error_gives_500 (env : LambdaEnv) (event : ApiGatewayEvent)
    (send : InvokeModelInput → Except JsError InvokeModelOutput) (err : JsError)
    (h : send (sentCommand env event) = Except.error err) :
    handler env event send =
      { statusCode := 500
        headers := jsonHeaders
        body :=
          stringifyJson
            (Json.obj
              ([("message", Json.str "Bedrock invoke failed")] ++
                optStrField "errorName" err.name ++
                optStrField "errorMessage" err.message)) } ∧
    ∀ k ∈ (([("message", Json.str "Bedrock invoke failed")] ++
        optStrField "errorName" err.name ++
        optStrField "errorMessage" err.message).map Prod.fst),
      k = "message" ∨ k = "errorName" ∨ k = "errorMessage" := by
  constructor
  · simp [handler, h, errorResponse]
  · intro k hk
    cases hn : err.name <;> cases hm : err.message <;>
      simp [optStrField, hn, hm] at hk <;> tauto

/-- Witness for C3 at a throttling failure: an error named
ThrottlingException yields the 500 response with errorName
ThrottlingException and the fixed message literal. -/
theorem invocation_error_gives_500_witness :
    handler ⟨none, none⟩ ⟨none⟩
        (fun _ => Except.error ⟨some "ThrottlingException", some "Rate exceeded"⟩) =
      { statusCode := 500
        headers := jsonHeaders
        body :=
          stringifyJson
            (Json.obj
              ([("message", Json.str "Bedrock invoke failed")] ++
                optStrField "errorName" (some "ThrottlingException") ++
                optStrField "errorMessage" (some "Rate exceeded"))) } ∧
    ∀ k ∈ (([("message", Json.str "Bedrock invoke failed")] ++
        optStrField "errorName" (some "ThrottlingException") ++
        optStrField "errorMessage" (some "Rate exceeded")).map Prod.fst),
      k = "message" ∨ k = "errorName" ∨ k = "errorMessage" :=
  invocation_error_gives_500 ⟨none, none⟩ ⟨none⟩
    (fun _ => Except.error ⟨some "ThrottlingException", some "Rate exceeded"⟩)
    ⟨some "ThrottlingException", some "Rate exceeded"⟩ rfl

/-- Modelled from the spec wording of the Response Extractor: keep, in
original order, the text value of exactly those blocks whose type equals the
string text and whose text property is a string, and concatenate with no
separator. -/
def specTextOf (b : Json) : Option String :=
  match b.getField "type", b.getField "text" with
  | some (Json.str ty), some (Json.str t) => if ty = "text" then some t else none
  | _, _ => none

/-- Modelled from the spec wording: the concatenation of the selected text
values of a content block list. -/
def specTextConcat (blocks : List Json) : String :=
  String.join (blocks.filterMap specTextOf)

/-- Pointwise agreement of the spec selection with the filter and map
pipeline of the source. -/
lemma specTextOf_eq (b : Json) :
    specTextOf b = if isTextBlock b then some (blockTextValue b) else none := by
  unfold specTextOf isTextBlock blockTextValue
  cases ht : b.getField "type" with
  | none => simp
  | some v =>
    cases v with
    | str ty =>
      cases hx : b.getField "text" with
      | none => simp
      | some w =>
        cases w with
        | str t => by_cases hty : ty = "text" <;> simp [hty]
        | null => simp
        | bool c => simp
        | num q => simp
        | arr xs => simp
        | obj fs => simp
    | null => simp
    | bool c => simp
    | num q => simp
    | arr xs => simp
    | obj fs => simp

/-- List level agreement of the spec selection with filter then map. -/
lemma filterMap_spec_eq (blocks : List Json) :
    blocks.filterMap specTextOf = (blocks.filter isTextBlock).map blockTextValue := by
  induction blocks with
  | nil => rfl
  | cons b bs ih =>
    by_cases hb : isTextBlock b
    · simp [List.filterMap_cons, List.filter_cons, hb, specTextOf_eq, ih]
    · simp [List.filterMap_cons, List.filter_cons, hb, specTextOf_eq, ih]

/-- C4: whenever the content field of the decoded provider response is an
array, the extracted text equals the concatenation, in original order with
no separator, of the text values of exactly those blocks whose type is the
string text and whose text is a string; blocks failing either predicate are
dropped. -/
theorem extractText_filters_and_concats (raw : Json) (blocks : List Json)
    (h : raw.getField "content" = some (Json.arr blocks)) :
    extractText raw = specTextConcat blocks := by
  unfold extractText specTextConcat
  rw [h, filterMap_spec_eq]

/-- Witness for C4 at the concrete content of the spec: a text block A, an
image block, and a text block B extract to AB. -/
theorem extractText_filters_and_concats_witness :
    extractText
        (Json.obj
          [("content",
            Json.arr
              [Json.obj [("type", Json.str "text"), ("text", Json.str "A")],
               Json.obj [("type", Json.str "image"), ("url", Json.str "x")],
               Json.obj [("type", Json.str "text"), ("text", Json.str "B")]])]) =
      "AB" :=
  (extractText_filters_and_concats
      (Json.obj
        [("content",
          Json.arr
            [Json.obj [("type", Json.str "text"), ("text", Json.str "A")],
             Json.obj [("type", Json.str "image"), ("url", Json.str "x")],
             Json.obj [("type", Json.str "text"), ("text", Json.str "B")]])])
      [Json.obj [("type", Json.str "text"), ("text", Json.str "A")],
       Json.obj [("type", Json.str "image"), ("url", Json.str "x")],
       Json.obj [("type", Json.str "text"), ("text", Json.str "B")]]
      rfl).trans rfl

/-- C5: for every normalized prompt the provider request payload carries the
fixed protocol version tag bedrock-2023-05-31, max_tokens 200, temperature
0.7, and a messages array holding a single user message whose content is a
one element array with the single text block wrapping the prompt; the
builder takes no other input, so none of these constants is caller
configurable. -/
theorem buildRequest_fixed_shape (p : String) :
    (buildRequestJson p).getField "anthropic_version" =
        some (Json.str "bedrock-2023-05-31") ∧
    (buildRequestJson p).getField "max_tokens" = some (Json.num 200) ∧
    (buildRequestJson p).getField "temperature" = some (Json.num 0.7) ∧
    (buildRequestJson p).getField "messages" =
      some
        (Json.arr
          [Json.obj
            [("role", Json.str "user"),
             ("content",
               Json.arr
                 [Json.obj
                   [("type", Json.str "text"), ("text", Json.str p)]])]]) ∧
    ((buildRequestJson p) matches Json.obj ([_, _, _, _])) :=
  ⟨rfl, rfl, rfl, rfl, rfl⟩

/-- C6: an absent body, an empty body, a body JSON.parse rejects, and a body
parsing to a value without a string prompt property all normalize to the
fixed default literal; normalization is a total function, so no error from
this stage reaches the caller. -/
theorem normalize_defaults :
    normalizePrompt none = defaultPrompt ∧
    normalizePrompt (some "") = defaultPrompt ∧
    (∀ s, Json.parse s = none → normalizePrompt (some s) = defaultPrompt) ∧
    (∀ s j, Json.parse s = some j →
      (∀ t, j.getField "prompt" ≠ some (Json.str t)) →
      normalizePrompt (some s) = defaultPrompt) := by
  refine ⟨rfl, rfl, fun s h => ?_, fun s j h hnp => ?_⟩
  · by_cases hs : s = ""
    · subst hs; rfl
    · simp [normalizePrompt, hs, h]
  · by_cases hs : s = ""
    · subst hs; rfl
    · cases hf : j.getField "prompt" with
      | none => simp [normalizePrompt, hs, h, hf]
      | some v =>
        cases v with
        | str t => exact absurd hf (hnp t)
        | null => simp [normalizePrompt, hs, h, hf]
        | bool c => simp [normalizePrompt, hs, h, hf]
        | num q => simp [normalizePrompt, hs, h, hf]
        | arr xs => simp [normalizePrompt, hs, h, hf]
        | obj fs => simp [normalizePrompt, hs, h, hf]

/-- Witness for C6 at the concrete inputs of the spec: the unparseable body
and the body whose prompt property is the number 42 both fall back to the
default literal. -/
theorem normalize_defaults_witness :
    normalizePrompt (some "not json") = defaultPrompt ∧
    normalizePrompt (some "\x7b\"prompt\": 42\x7d") = defaultPrompt :=
  ⟨normalize_defaults.2.2.1 "not json" rfl,
   normalize_defaults.2.2.2 "\x7b\"prompt\": 42\x7d"
     (Json.obj [("prompt", Json.num 42)]) rfl
     (fun _ h => Json.noConfusion (Option.some.inj h))⟩

/-- C7: whenever the inbound body parses as JSON with a string valued prompt
property, the normalized prompt equals that string exactly and the messages
field of the built payload wraps exactly that string in its single text
block. -/
theorem prompt_used_verbatim (s : String) (j : Json) (p : String)
    (hparse : Json.parse s = some j)
    (hfield : j.getField "prompt" = some (Json.str p)) :
    normalizePrompt (some s) = p ∧
    (buildRequestJson (normalizePrompt (some s))).getField "messages" =
      some
        (Json.arr
          [Json.obj
            [("role", Json.str "user"),
             ("content",
               Json.arr
                 [Json.obj
                   [("type", Json.str "text"), ("text", Json.str p)]])]]) := by
  have hs : s ≠ "" := by
    intro h
    subst h
    rw [json_parse_empty] at hparse
    cases hparse
  have h1 : normalizePrompt (some s) = p := by
    simp [normalizePrompt, hs, hparse, hfield]
  exact ⟨h1, by rw [h1]; rfl⟩

/-- Witness for C7 at the concrete scenario of the spec: the body with
prompt Say hi yields exactly Say hi in the builder payload. -/
theorem prompt_used_verbatim_witness :
    normalizePrompt (some "\x7b\"prompt\":\"Say hi\"\x7d") = "Say hi" ∧
    (buildRequestJson (normalizePrompt (some "\x7b\"prompt\":\"Say hi\"\x7d"))).getField
        "messages" =
      some
        (Json.arr
          [Json.obj
            [("role", Json.str "user"),
             ("content",
               Json.arr
                 [Json.obj
                   [("type", Json.str "text"), ("text", Json.str "Say hi")]])]]) :=
  prompt_used_verbatim "\x7b\"prompt\":\"Say hi\"\x7d"
    (Json.obj [("prompt", Json.str "Say hi")]) "Say hi" rfl rfl

/-- C8: when the provider call succeeds and its payload decodes to a value
whose content field is absent or not an array, the extracted text is the
empty string and the handler still returns status 200 with text empty in
the success body. -/
theorem no_content_array_still_200 (env : LambdaEnv) (event : ApiGatewayEvent)
    (send : InvokeModelInput → Except JsError InvokeModelOutput)
    (payload : String) (raw : Json)
    (hsend : send (sentCommand env event) = Except.ok ⟨payload⟩)
    (hparse : Json.parse payload = some raw)
    (hcontent : ∀ bs, raw.getField "content" ≠ some (Json.arr bs)) :
    extractText raw = "" ∧
    handler env event send =
      { statusCode := 200
        headers := jsonHeaders
        body :=
          stringifyJson
            (Json.obj
              [("region", Json.str (envOr env.bedrockRegion defaultRegion)),
               ("modelId", Json.str (envOr env.modelIdVar defaultModelId)),
               ("prompt", Json.str (normalizePrompt event.body)),
               ("text", Json.str "")]) } := by
  have hext : extractText raw = "" := by
    unfold extractText
    cases hc : raw.getField "content" with
    | none => rfl
    | some v =>
      cases v with
      | arr bs => exact absurd hc (hcontent bs)
      | null => rfl
      | bool c => rfl
      | num q => rfl
      | str s => rfl
      | obj fs => rfl
  refine ⟨hext, ?_⟩
  simp [handler, hsend, hparse, hext]

/-- Witness for C8 at the concrete payload of an empty JSON object, which
has no content field. -/
theorem no_content_array_still_200_witness :
    extractText (Json.obj []) = "" ∧
    handler ⟨none, none⟩ ⟨none⟩ (fun _ => Except.ok ⟨"\x7b\x7d"⟩) =
      { statusCode := 200
        headers := jsonHeaders
        body :=
          stringifyJson
            (Json.obj
              [("region", Json.str (envOr none defaultRegion)),
               ("modelId", Json.str (envOr none defaultModelId)),
               ("prompt", Json.str (normalizePrompt none)),
               ("text", Json.str "")]) } :=
  no_content_array_still_200 ⟨none, none⟩ ⟨none⟩ (fun _ => Except.ok ⟨"\x7b\x7d"⟩)
    "\x7b\x7d" (Json.obj []) rfl rfl
    (fun _ h => Option.noConfusion h)

/-- C9: a provider payload that fails to parse as JSON is not handled
separately: the handler lands in the same catch block as a failed
invocation, producing the same 500 response shape with the fixed message
literal and the name and message of the thrown SyntaxError. -/
theorem malformed_payload_hits_same_catch (env : LambdaEnv)
    (event : ApiGatewayEvent)
    (send : InvokeModelInput → Except JsError InvokeModelOutput)
    (payload : String)
    (hsend : send (sentCommand env event) = Except.ok ⟨payload⟩)
    (hparse : Json.parse payload = none) :
    handler env event send = errorResponse syntaxError ∧
    errorResponse syntaxError =
      { statusCode := 500
        headers := jsonHeaders
        body :=
          stringifyJson
            (Json.obj
              [("message", Json.str "Bedrock invoke failed"),
               ("errorName", Json.str "SyntaxError"),
               ("errorMessage", Json.str "Unexpected token in JSON")]) } := by
  refine ⟨?_, rfl⟩
  simp [handler, hsend, hparse]

/-- Witness for C9 at the unparseable provider payload not json. -/
theorem malformed_payload_hits_same_catch_witness :
    handler ⟨none, none⟩ ⟨none⟩ (fun _ => Except.ok ⟨"not json"⟩) =
        errorResponse syntaxError ∧
    errorResponse syntaxError =
      { statusCode := 500
        headers := jsonHeaders
        body :=
          stringifyJson
            (Json.obj
              [("message", Json.str "Bedrock invoke failed"),
               ("errorName", Json.str "SyntaxError"),
               ("errorMessage", Json.str "Unexpected token in JSON")]) } :=
  malformed_payload_hits_same_catch ⟨none, none⟩ ⟨none⟩
    (fun _ => Except.ok ⟨"not json"⟩) "not json" rfl rfl

/-- C10: the InvokeModel command the handler passes to the provider,
including its serialized body, is a deterministic function of the inbound
body and the environment configuration: two invocations with equal bodies
and equal configuration send byte identical requests, whatever the provider
does, and the body is exactly the serialization of the built payload for
the normalized prompt. -/
theorem sent_request_deterministic (env : LambdaEnv)
    (e1 e2 : ApiGatewayEvent) (h : e1.body = e2.body) :
    sentCommand env e1 = sentCommand env e2 ∧
    (sentCommand env e1).body =
      stringifyJson (buildRequestJson (normalizePrompt e1.body)) := by
  cases e1
  cases e2
  cases h
  exact ⟨rfl, rfl⟩

/-- Witness for C10 at a concrete repeated request. -/
theorem sent_request_deterministic_witness :
    sentCommand ⟨none, none⟩ ⟨some "\x7b\"prompt\":\"Say hi\"\x7d"⟩ =
        sentCommand ⟨none, none⟩ ⟨some "\x7b\"prompt\":\"Say hi\"\x7d"⟩ ∧
    (sentCommand ⟨none, none⟩ ⟨some "\x7b\"prompt\":\"Say hi\"\x7d"⟩).body =
      stringifyJson
        (buildRequestJson (normalizePrompt (some "\x7b\"prompt\":\"Say hi\"\x7d"))) :=
  sent_request_deterministic ⟨none, none⟩ ⟨some "\x7b\"prompt\":\"Say hi\"\x7d"⟩
    ⟨some "\x7b\"prompt\":\"Say hi\"\x7d"⟩ rfl
